import Mathlib

/-!
Verification of the 8-bit counter example (`src/examples/amaranth/counter/counter.py`).

The Python file describes, with the Amaranth HDL embedding, an 8-bit counter
with an `enable` input and an `overflow` flag, plus a fixed stimulus testbench
and a CLI entry point.  We embed the synchronous transition rule of
`Counter.elaborate`, the testbench's polling loop (`simulate.testbench`,
phase "Test 4") and the `__main__` dispatch as executable Lean functions,
and prove the claims about them.
-/

/-- State of the counter: the 8-bit register `count` (kept as a `Nat`, always
reduced modulo 256 along any run from reset) and the one-bit register
`overflow`. -/
structure CounterState where
  count : Nat
  overflow : Bool
deriving DecidableEq, Repr

/-- Reset state: Amaranth signals reset to 0, so `count = 0`, `overflow = false`. -/
def counterInit : CounterState := ⟨0, false⟩

/-- One clock edge of `Counter.elaborate`:

  * `with m.If(self.enable): m.d.sync += self.count.eq(self.count + 1)` —
    when `enable` is high the 8-bit register increments (wrapping modulo 256),
    otherwise it holds its value;
  * `with m.If(self.enable & (self.count == 255)): m.d.sync += self.overflow.eq(1)`
    `with m.Else(): m.d.sync += self.overflow.eq(0)` —
    `overflow` is registered to `enable & (count == 255)` of the pre-edge values. -/
def counterStep (s : CounterState) (enable : Bool) : CounterState :=
  { count := if enable then (s.count + 1) % 256 else s.count
    overflow := enable && (s.count == 255) }

/-- Run the counter from state `s` over a list of per-edge `enable` values. -/
def counterRun (s : CounterState) (es : List Bool) : CounterState :=
  es.foldl counterStep s

/-- Number of edges in an enable history at which `enable` was true. -/
def enabledCount : List Bool → Nat
  | [] => 0
  | true :: es => enabledCount es + 1
  | false :: es => enabledCount es

/-- Enable values driven by the testbench before the polling phase:
5 disabled edges, 20 enabled, 5 disabled, 10 enabled
(`simulate.testbench`, phases "Initialize" through "Test 3"). -/
def stimulusScript : List Bool :=
  List.replicate 5 false ++ List.replicate 20 true ++
  List.replicate 5 false ++ List.replicate 10 true

/-- Polling loop of testbench phase "Test 4"
(`while cycles < 300: yield Tick(); cycles += 1; if overflow: print(...); break`),
with `enable` still high.  `fuel` is the number of loop iterations remaining
(300 at entry).  Returns the final value of `cycles` (the number of edges
advanced) and whether the early-exit branch — the one that prints the cycle
index — was taken. -/
def pollLoop : Nat → CounterState → Nat × Bool
  | 0, _ => (0, false)
  | fuel + 1, s =>
    let s' := counterStep s true
    if s'.overflow then (1, true)
    else
      let r := pollLoop fuel s'
      (r.1 + 1, r.2)

/-- The polling phase with its 300-cycle cap. -/
def pollPhase (s : CounterState) : Nat × Bool := pollLoop 300 s

/-- Actions the `__main__` block can take. -/
inductive MainAction where
  | runSimulation
  | generateVerilog
deriving DecidableEq, Repr

/-- CLI dispatch of the `__main__` block:
`if len(sys.argv) > 1 and sys.argv[1] == "verilog": generate_verilog() else: simulate()`.
`argv` includes the program name at index 0, as `sys.argv` does; the
short-circuit `and` becomes a conjunction with a total `getD` lookup, which
agrees with it because the lookup is only consulted when the length guard
holds. -/
def mainDispatch (argv : List String) : MainAction :=
  if argv.length > 1 ∧ argv.getD 1 "" = "verilog" then
    MainAction.generateVerilog
  else
    MainAction.runSimulation

/-! ## Basic lemmas about runs -/

/-- Unfolding a run one edge at the front. -/
theorem counterRun_cons (s : CounterState) (e : Bool) (es : List Bool) :
    counterRun s (e :: es) = counterRun (counterStep s e) es := rfl

/-- Unfolding a run at the last edge. -/
theorem counterRun_append_single (s : CounterState) (es : List Bool) (e : Bool) :
    counterRun s (es ++ [e]) = counterStep (counterRun s es) e := by
  simp [counterRun, List.foldl_append]

/-- Unfolding a run of `j + 1` enabled edges at the first edge. -/
theorem counterRun_replicate_succ (s : CounterState) (j : Nat) :
    counterRun s (List.replicate (j + 1) true) =
      counterRun (counterStep s true) (List.replicate j true) := by
  rw [List.replicate_succ, counterRun_cons]

/-- Along any run, if the start count is a valid 8-bit value, the final count is
the start count plus the number of enabled edges, modulo 256. -/
theorem counterRun_count_aux (es : List Bool) :
    ∀ s : CounterState, s.count < 256 →
      (counterRun s es).count = (s.count + enabledCount es) % 256 := by
  induction es with
  | nil =>
      intro s h
      simp [counterRun, enabledCount, Nat.mod_eq_of_lt h]
  | cons e es ih =>
      intro s h
      rw [counterRun_cons]
      cases e with
      | true =>
          have h' : (counterStep s true).count < 256 := by
            simp [counterStep]
            exact Nat.mod_lt _ (by norm_num)
          rw [ih _ h']
          simp [counterStep, enabledCount]
          omega
      | false =>
          have h' : (counterStep s false).count < 256 := by
            simpa [counterStep] using h
          rw [ih _ h']
          simp [counterStep, enabledCount]

/-- Behaviour of the polling loop for any fuel: it advances at most `fuel`
edges; when the early-exit flag is set, the returned cycle index is the first
index (counting from 1) at which `overflow` is observed true after an edge;
when the flag is clear, all `fuel` edges were advanced and `overflow` was
never observed true. -/
theorem pollLoop_spec : ∀ (fuel : Nat) (s : CounterState),
    (pollLoop fuel s).1 ≤ fuel ∧
    ((pollLoop fuel s).2 = true →
      1 ≤ (pollLoop fuel s).1 ∧
      (counterRun s (List.replicate (pollLoop fuel s).1 true)).overflow = true ∧
      ∀ j, 1 ≤ j → j < (pollLoop fuel s).1 →
        (counterRun s (List.replicate j true)).overflow = false) ∧
    ((pollLoop fuel s).2 = false →
      (pollLoop fuel s).1 = fuel ∧
      ∀ j, 1 ≤ j → j ≤ fuel →
        (counterRun s (List.replicate j true)).overflow = false) := by
  intro fuel
  induction fuel with
  | zero =>
      intro s
      refine ⟨by simp [pollLoop], fun h => by simp [pollLoop] at h, fun _ => ?_⟩
      exact ⟨by simp [pollLoop], fun j h1 h2 => by omega⟩
  | succ n ih =>
      intro s
      by_cases hov : (counterStep s true).overflow = true
      · have hp1 : (pollLoop (n + 1) s).1 = 1 := by simp [pollLoop, hov]
        have hp2 : (pollLoop (n + 1) s).2 = true := by simp [pollLoop, hov]
        rw [hp1, hp2]
        refine ⟨by omega, fun _ => ⟨le_refl 1, ?_, fun j h1 h2 => by omega⟩,
          fun h => by simp at h⟩
        simpa [counterRun] using hov
      · have hov' : (counterStep s true).overflow = false := by
          simpa using hov
        have hp1 : (pollLoop (n + 1) s).1 = (pollLoop n (counterStep s true)).1 + 1 := by
          simp [pollLoop, hov']
        have hp2 : (pollLoop (n + 1) s).2 = (pollLoop n (counterStep s true)).2 := by
          simp [pollLoop, hov']
        obtain ⟨ih1, ih2, ih3⟩ := ih (counterStep s true)
        rw [hp1, hp2]
        refine ⟨by omega, ?_, ?_⟩
        · intro h2
          obtain ⟨hk1, hkov, hkmin⟩ := ih2 h2
          refine ⟨by omega, ?_, ?_⟩
          · rw [counterRun_replicate_succ]
            exact hkov
          · intro j h1 hlt
            obtain ⟨j', rfl⟩ : ∃ j', j = j' + 1 := ⟨j - 1, by omega⟩
            rw [counterRun_replicate_succ]
            rcases Nat.eq_zero_or_pos j' with h0 | hpos
            · subst h0
              simpa [counterRun] using hov'
            · exact hkmin j' hpos (by omega)
        · intro h2
          obtain ⟨hk, hall⟩ := ih3 h2
          refine ⟨by omega, ?_⟩
          intro j h1 hle
          obtain ⟨j', rfl⟩ : ∃ j', j = j' + 1 := ⟨j - 1, by omega⟩
          rw [counterRun_replicate_succ]
          rcases Nat.eq_zero_or_pos j' with h0 | hpos
          · subst h0
            simpa [counterRun] using hov'
          · exact hall j' hpos (by omega)

/-! ## Claims -/

/-- Claim C1: the per-clock-edge transition of the counter: with `enable` true
the next count is `(count + 1) mod 256` and the next overflow holds exactly
when the pre-increment count is 255; with `enable` false the count is held and
the overflow is cleared. -/
theorem counter_C1 (s : CounterState) :
    (counterStep s true).count = (s.count + 1) % 256 ∧
    ((counterStep s true).overflow = true ↔ s.count = 255) ∧
    (counterStep s false).count = s.count ∧
    (counterStep s false).overflow = false := by
  simp [counterStep]

/-- Claim C2: in every state reached from reset by some edges followed by a
final edge with enable value `e`, `overflow` is true iff the state before that
final edge had `count = 255` and `e` was true. -/
theorem counter_C2 (es : List Bool) (e : Bool) :
    (counterRun counterInit (es ++ [e])).overflow = true ↔
      ((counterRun counterInit es).count = 255 ∧ e = true) := by
  rw [counterRun_append_single]
  simp [counterStep]
  tauto

/-- Claim C3: from reset, after any enable history, `count` equals the number
of enabled edges modulo 256 (disabled edges interleave freely). -/
theorem counter_C3 (es : List Bool) :
    (counterRun counterInit es).count = enabledCount es % 256 := by
  have h := counterRun_count_aux es counterInit (by decide)
  simpa [counterInit] using h

set_option maxRecDepth 10000 in
/-- Claim C4: from reset, 255 consecutive enabled edges give `count = 255`
with `overflow` still false; the 256th enabled edge wraps `count` to 0 and
raises `overflow`. -/
theorem counter_C4 :
    counterRun counterInit (List.replicate 255 true) = ⟨255, false⟩ ∧
    counterRun counterInit (List.replicate 256 true) = ⟨0, true⟩ := by
  decide

/-- Claim C6: with no command-line argument the program runs the simulation;
with first argument the literal `"verilog"` it generates Verilog instead. -/
theorem counter_C6 :
    (∀ prog : String, mainDispatch [prog] = MainAction.runSimulation) ∧
    (∀ (prog : String) (rest : List String),
      mainDispatch (prog :: "verilog" :: rest) = MainAction.generateVerilog) := by
  constructor
  · intro prog
    unfold mainDispatch
    rw [if_neg]
    rintro ⟨hl, -⟩
    simp at hl
  · intro prog rest
    unfold mainDispatch
    rw [if_pos]
    exact ⟨by simp, rfl⟩

/-- Claim C7: an edge with `enable` false leaves `count` unchanged and clears
`overflow` in every state; in particular, holding `enable` false for up to 5
edges from reset keeps the state at reset throughout. -/
theorem counter_C7 :
    (∀ s : CounterState,
      (counterStep s false).count = s.count ∧ (counterStep s false).overflow = false) ∧
    (∀ j, j ≤ 5 → counterRun counterInit (List.replicate j false) = counterInit) := by
  constructor
  · intro s
    simp [counterStep]
  · intro j hj
    interval_cases j <;> decide

/-- Witness for C7 at the concrete bound `j = 5`. -/
theorem counter_C7_witness :
    counterRun counterInit (List.replicate 5 false) = counterInit :=
  counter_C7.2 5 (by decide)

/-- Claim C8: in every state reachable from reset, `overflow` true forces
`count = 0`: the flag is only set on the edge that wraps the counter. -/
theorem counter_C8 (es : List Bool)
    (h : (counterRun counterInit es).overflow = true) :
    (counterRun counterInit es).count = 0 := by
  induction es using List.reverseRecOn with
  | nil => simp [counterRun, counterInit] at h
  | append_singleton l e ih =>
      rw [counterRun_append_single] at h ⊢
      simp [counterStep] at h ⊢
      obtain ⟨he, hc⟩ := h
      simp [he, hc]

set_option maxRecDepth 10000 in
/-- Witness for C8: after 256 enabled edges from reset overflow is true, and
the theorem gives `count = 0` there. -/
theorem counter_C8_witness :
    (counterRun counterInit (List.replicate 256 true)).count = 0 :=
  counter_C8 (List.replicate 256 true) (by decide)

/-- Claim C5: the polling phase advances at most 300 clock edges; when it
takes the printing early-exit branch (second component `true`) the returned
cycle index is the first edge after which `overflow` is observed true; when it
does not (second component `false`, so nothing is printed) it stopped at the
300-cycle cap with `overflow` never observed true. -/
theorem counter_C5 (s : CounterState) :
    (pollPhase s).1 ≤ 300 ∧
    ((pollPhase s).2 = true →
      1 ≤ (pollPhase s).1 ∧
      (counterRun s (List.replicate (pollPhase s).1 true)).overflow = true ∧
      ∀ j, 1 ≤ j → j < (pollPhase s).1 →
        (counterRun s (List.replicate j true)).overflow = false) ∧
    ((pollPhase s).2 = false →
      (pollPhase s).1 = 300 ∧
      ∀ j, 1 ≤ j → j ≤ 300 →
        (counterRun s (List.replicate j true)).overflow = false) :=
  pollLoop_spec 300 s

set_option maxRecDepth 10000 in
/-- Witness for C5: from reset the early-exit branch is taken, and the theorem
yields that overflow is indeed observed true at the returned cycle index. -/
theorem counter_C5_witness :
    (counterRun counterInit
      (List.replicate (pollPhase counterInit).1 true)).overflow = true :=
  ((counter_C5 counterInit).2.1 (by decide)).2.1

set_option maxRecDepth 10000 in
/-- Claim C9: under the fixed stimulus (5 disabled, 20 enabled, 5 disabled,
10 enabled edges), the polling phase first observes overflow at cycle index
226, strictly below the 300-cycle cap, taking the printing branch. -/
theorem counter_C9 :
    pollPhase (counterRun counterInit stimulusScript) = (226, true) ∧
    226 < 300 := by
  exact ⟨by decide, by decide⟩

/-- Claim C10: any first argument other than the literal `"verilog"` falls
through to the simulation path, with no rejection of the argument. -/
theorem counter_C10 (prog a : String) (rest : List String) (h : a ≠ "verilog") :
    mainDispatch (prog :: a :: rest) = MainAction.runSimulation := by
  unfold mainDispatch
  rw [if_neg]
  rintro ⟨-, hc⟩
  exact h hc

/-- Witness for C10 at a concrete non-`"verilog"` argument. -/
theorem counter_C10_witness :
    mainDispatch ["counter.py", "simulate"] = MainAction.runSimulation :=
  counter_C10 "counter.py" "simulate" [] (by decide)
